import Mathlib

/-
Verification of the OSC (Open Sound Control) packet codec and dispatch
subsystem. The decode path (`readPacket`, `readBundle`, `readMessage`,
`readArguments`, `readBlob`, `readFromConnection`) is translated from
`server.go`. Helper routines that live in a file not present here
(`readPaddedString`, `padBytesNeeded`, the dispatcher and its address
validation, the `BundleTag` constant) are modelled from the specification
and are marked as such in their doc comments.

The byte reader (`bufio.Reader` in the source) is modelled as a
`List UInt8` holding the not-yet-consumed bytes; reading consumes a prefix.
The separate `*int` position counter threaded through the decode functions
(named `start` in the source) is modelled as an explicit `Nat` argument
and result. Numeric argument values are kept as their raw big-endian bit
patterns (a `Nat`); the bit-pattern-to-value conversion is a bijection, and
no property below depends on it, so this avoids modelling two's-complement
and IEEE-754 decoding.
-/

namespace Osc

/-- Errors returned by the decode and registration paths. `truncatedInput`
stands for the `io.EOF` / `io.ErrUnexpectedEOF` errors that Go reads return
on short input; `invalidBinaryType` is the `binary.Read: invalid type`
error; `outOfFuel` is an artifact of the fuel-bounded recursion used for
the mutually recursive bundle decoding (never reached with enough fuel). -/
inductive OscError where
  | truncatedInput
  | invalidTypeTag
  | unsupportedTypeTag : Char → OscError
  | invalidBundleTag : String → OscError
  | invalidBinaryType
  | invalidAddress
  | outOfFuel
deriving DecidableEq

/-- Result of a decode step: a normal return value, a returned Go error, or
a Go runtime panic (`crash`), which does not return to the caller at all
but unwinds and kills the process. -/
inductive DecResult (α : Type) where
  | ok : α → DecResult α
  | fail : OscError → DecResult α
  | crash : DecResult α
deriving DecidableEq

/-- Modelled from the spec: `padBytesNeeded(n) = (4 - n % 4) % 4` (the
helper is in the repository file that is not under src). -/
def padBytesNeeded (n : Nat) : Nat := (4 - n % 4) % 4

/-- Big-endian value of a byte sequence. -/
def bytesToNat (bs : List UInt8) : Nat := bs.foldl (fun a b => a * 256 + b.toNat) 0

/-- Splits off exactly `k` bytes, or fails when fewer remain. -/
def readBytes : Nat → List UInt8 → Option (List UInt8 × List UInt8)
  | 0, buf => some ([], buf)
  | _ + 1, [] => none
  | k + 1, b :: rest =>
    match readBytes k rest with
    | none => none
    | some (bs, r) => some (b :: bs, r)

/-- Model of Go `binary.Read` into a fixed-size `k`-byte big-endian value.
`io.ReadFull` consumes `min. k |buf|` bytes; on short input the read fails
(with `io.EOF` or `io.ErrUnexpectedEOF`) after consuming everything that
was available, which is why the failure case still returns `buf.drop k`. -/
def binRead (k : Nat) (buf : List UInt8) : Option Nat × List UInt8 :=
  match readBytes k buf with
  | none => (none, buf.drop k)
  | some (bs, r) => (some (bytesToNat bs), r)

/-- Model of Go `binary.Read` into a plain Go `int` (as in `readBlob`,
`var blobLen int`): `encoding/binary` rejects `int` as a non-fixed-size
type (`dataSize` yields -1 for `reflect.Int`), returning the error
`binary.Read: invalid type *int` without consuming any input. -/
def binReadGoInt (buf : List UInt8) : Option Nat × List UInt8 := (none, buf)

/-- Bytes up to (excluding) the first `0x00`, and the bytes after it;
`none` when the buffer holds no `0x00` at all. -/
def scanString : List UInt8 → Option (List UInt8 × List UInt8)
  | [] => none
  | b :: rest =>
    if b = 0 then some ([], rest)
    else
      match scanString rest with
      | none => none
      | some (content, r) => some (b :: content, r)

/-- Modelled from the spec: `readPaddedString` (in the repository file that
is not under src). Reads bytes until the first `0x00`, then consumes
zero-padding so that the total number of consumed bytes (content plus
terminator plus padding) is a multiple of 4; returns the content string,
the number of bytes consumed, and the remaining buffer; fails with
`truncatedInput` when no terminator or too few padding bytes remain. -/
def readPaddedString (buf : List UInt8) : DecResult (String × Nat × List UInt8) :=
  match scanString buf with
  | none => .fail .truncatedInput
  | some (content, rest) =>
    let len := content.length
    let pad := padBytesNeeded (len + 1)
    match readBytes pad rest with
    | none => .fail .truncatedInput
    | some (_, rest) =>
      .ok (String.mk (content.map fun b => Char.ofNat b.toNat), len + 1 + pad, rest)

/-- Model of a single `reader.Read` call into a freshly allocated `k`-byte
slice (as used by `readBlob`): copies up to `k` available bytes into the
zero-initialized slice and errors only when nothing is available. -/
def goRead (k : Nat) (buf : List UInt8) : Option (List UInt8) × List UInt8 :=
  if k = 0 then (some [], buf)
  else
    match buf with
    | [] => (none, [])
    | _ :: _ => (some (buf.take k ++ List.replicate (k - min k buf.length) 0), buf.drop k)

/-- From src `readBlob`. The length is read with `binary.Read` into a plain
Go `int`, which `encoding/binary` rejects, so the function fails on every
input with the invalid-type error before reading anything; the rest of the
body (reading `blobLen` bytes, then consuming `padBytesNeeded blobLen`
padding bytes, reporting `4 + blobLen + padding` consumed) is translated
faithfully but unreachable. -/
def readBlob (buf : List UInt8) : DecResult (List UInt8 × Nat × List UInt8) :=
  match binReadGoInt buf with
  | (none, _) => .fail .invalidBinaryType
  | (some blobLen, buf) =>
    let n := 4 + blobLen
    match goRead blobLen buf with
    | (none, _) => .fail .truncatedInput
    | (some blob, buf) =>
      let numPadBytes := padBytesNeeded blobLen
      if 0 < numPadBytes then
        match goRead numPadBytes buf with
        | (none, _) => .fail .truncatedInput
        | (some _, buf) => .ok (blob, n + numPadBytes, buf)
      else .ok (blob, n, buf)

/-- One typed OSC argument. Numeric constructors carry the raw big-endian
wire value. -/
inductive Arg where
  | int32 : Nat → Arg
  | int64 : Nat → Arg
  | float32 : Nat → Arg
  | float64 : Nat → Arg
  | str : String → Arg
  | blob : List UInt8 → Arg
  | timetag : Nat → Arg
  | boolArg : Bool → Arg
deriving DecidableEq

/-- The type-tag character corresponding to an argument's kind. -/
def argTag : Arg → Char
  | .int32 _ => 'i'
  | .int64 _ => 'h'
  | .float32 _ => 'f'
  | .float64 _ => 'd'
  | .str _ => 's'
  | .blob _ => 'b'
  | .timetag _ => 't'
  | .boolArg true => 'T'
  | .boolArg false => 'F'

/-- An OSC message: address plus ordered arguments. -/
structure Message where
  address : String
  arguments : List Arg
deriving DecidableEq

/-- The `switch c` loop body of src `readArguments` (lines 282-360), one
recursive step per type-tag character. The accumulated `msg.Append` calls
are threaded through `acc`. In the `'t'` case the source reads `if err =
binary.Read(...); err != nil { return nil }`: a failed timetag read makes
the whole of `readArguments` return a nil error immediately, so the loop
stops and reports success with only the arguments appended so far. In the
`'s'` case the source advances the position counter by
`len(s) + padBytesNeeded(len(s))`, not by the number of bytes actually
consumed from the reader. -/
def readArgLoop : List Char → List UInt8 → Nat → List Arg → DecResult (List Arg × List UInt8 × Nat)
  | [], buf, start, acc => .ok (acc, buf, start)
  | c :: ts, buf, start, acc =>
    if c = 'i' then
      match binRead 4 buf with
      | (none, _) => .fail .truncatedInput
      | (some v, buf) => readArgLoop ts buf (start + 4) (acc ++ [.int32 v])
    else if c = 'h' then
      match binRead 8 buf with
      | (none, _) => .fail .truncatedInput
      | (some v, buf) => readArgLoop ts buf (start + 8) (acc ++ [.int64 v])
    else if c = 'f' then
      match binRead 4 buf with
      | (none, _) => .fail .truncatedInput
      | (some v, buf) => readArgLoop ts buf (start + 4) (acc ++ [.float32 v])
    else if c = 'd' then
      match binRead 8 buf with
      | (none, _) => .fail .truncatedInput
      | (some v, buf) => readArgLoop ts buf (start + 8) (acc ++ [.float64 v])
    else if c = 's' then
      match readPaddedString buf with
      | .fail e => .fail e
      | .crash => .crash
      | .ok (s, _, buf) =>
        readArgLoop ts buf (start + (s.length + padBytesNeeded s.length)) (acc ++ [.str s])
    else if c = 'b' then
      match readBlob buf with
      | .fail e => .fail e
      | .crash => .crash
      | .ok (b, n, buf) => readArgLoop ts buf (start + n) (acc ++ [.blob b])
    else if c = 't' then
      match binRead 8 buf with
      | (none, buf) => .ok (acc, buf, start)
      | (some v, buf) => readArgLoop ts buf (start + 8) (acc ++ [.timetag v])
    else if c = 'T' then readArgLoop ts buf start (acc ++ [.boolArg true])
    else if c = 'F' then readArgLoop ts buf start (acc ++ [.boolArg false])
    else .fail (.unsupportedTypeTag c)

/-- From src `readArguments`: read the type-tag string as a padded
OSC-string, then check its first byte is `','` and loop over the remaining
tag characters. The source indexes `typetags[0]` without checking for an
empty string; in Go that is an index-out-of-range runtime panic, modelled
as `crash`. -/
def readArguments (buf : List UInt8) (start : Nat) : DecResult (List Arg × List UInt8 × Nat) :=
  match readPaddedString buf with
  | .fail e => .fail e
  | .crash => .crash
  | .ok (typetags, n, buf) =>
    match typetags.data with
    | [] => .crash
    | c :: rest =>
      if c = ',' then readArgLoop rest buf (start + n) []
      else .fail .invalidTypeTag

/-- From src `readMessage`: read the padded address string, then the
arguments. -/
def readMessage (buf : List UInt8) (start : Nat) : DecResult (Message × List UInt8 × Nat) :=
  match readPaddedString buf with
  | .fail e => .fail e
  | .crash => .crash
  | .ok (address, n, buf) =>
    match readArguments buf (start + n) with
    | .fail e => .fail e
    | .crash => .crash
    | .ok (args, buf, start) => .ok (⟨address, args⟩, buf, start)

/-- An OSC packet: a Message or a Bundle. A bundle carries its raw 64-bit
timetag (the source stores `timetagToTime(timeTag)`; that conversion, in
the repository file not under src, is a bijection on the wire value and is
modelled as the identity) and its elements. An element is an
`Option Packet` because `readBundle` appends whatever `readPacket`
returned, which is the Go nil interface when the element's first byte is
neither `'/'` nor `'#'`. -/
inductive Packet where
  | message : Message → Packet
  | bundle : Nat → List (Option Packet) → Packet

/-- Modelled from the spec: the literal `"#bundle"` marker (the `BundleTag`
constant is in the repository file not under src). -/
def BundleTag : String := "#bundle"

/-- Descriptor for the three mutually recursive pieces of the recursive
packet decoder: `readPacket` itself, `readBundle`, and the element loop
inside `readBundle` (which carries the timetag and the elements read so
far). They are merged into the single function `readRec`, structurally
recursive on its fuel, so that the decoder evaluates by reduction. -/
inductive ReadCall where
  | packet : List UInt8 → Nat → Nat → ReadCall
  | bundleStart : List UInt8 → Nat → Nat → ReadCall
  | bundleElems : Nat → List (Option Packet) → List UInt8 → Nat → Nat → ReadCall

/-- The recursive packet decoder, from src `readPacket` and `readBundle`.

`.packet buf start endPos` (src `readPacket`): peek the first byte; `'/'`
(byte 47) starts a Message, `'#'` (byte 35) starts a Bundle, and any other
value falls through both branches, returning `(nil, nil)` — a successful
return carrying no packet. An empty reader makes `Peek(1)` fail.

`.bundleStart buf start endPos` (src `readBundle`): read the padded bundle
tag string and check it against `"#bundle"`, read the 8-byte timetag, then
loop over the elements while `start < endPos`.

`.bundleElems tt elems buf start endPos` (the `for *start < end` loop of
src `readBundle`, lines 223-238): read a 4-byte element length (advancing
`start` by 4 before the error check — the declared length itself is
otherwise unused), recursively read one packet, and append it to the
bundle's elements.

The `fuel` argument bounds the recursion; each loop iteration advances
`start` by at least 4 toward `endPos`, so `endPos` fuel is always
enough. -/
def readRec : Nat → ReadCall → DecResult (Option Packet × List UInt8 × Nat)
  | 0, _ => .fail .outOfFuel
  | fuel + 1, .packet buf start endPos =>
    match buf.head? with
    | none => .fail .truncatedInput
    | some b =>
      if b = 47 then
        match readMessage buf start with
        | .fail e => .fail e
        | .crash => .crash
        | .ok (m, buf, start) => .ok (some (.message m), buf, start)
      else if b = 35 then
        match readRec fuel (.bundleStart buf start endPos) with
        | .fail e => .fail e
        | .crash => .crash
        | .ok (p, buf, start) => .ok (p, buf, start)
      else .ok (none, buf, start)
  | fuel + 1, .bundleStart buf start endPos =>
    match readPaddedString buf with
    | .fail e => .fail e
    | .crash => .crash
    | .ok (startTag, n, buf) =>
      if startTag = BundleTag then
        match binRead 8 buf with
        | (none, _) => .fail .truncatedInput
        | (some tt, buf) => readRec fuel (.bundleElems tt [] buf (start + n + 8) endPos)
      else .fail (.invalidBundleTag startTag)
  | fuel + 1, .bundleElems tt elems buf start endPos =>
    if start < endPos then
      match binRead 4 buf with
      | (none, _) => .fail .truncatedInput
      | (some _, buf) =>
        match readRec fuel (.packet buf (start + 4) endPos) with
        | .fail e => .fail e
        | .crash => .crash
        | .ok (p, buf, start) => readRec fuel (.bundleElems tt (elems ++ [p]) buf start endPos)
    else .ok (some (.bundle tt elems), buf, start)

/-- Src `readPacket` (see `readRec`). -/
def readPacket (fuel : Nat) (buf : List UInt8) (start endPos : Nat) :
    DecResult (Option Packet × List UInt8 × Nat) :=
  readRec fuel (.packet buf start endPos)

/-- Fuel used by `readFromConnection`: more than any possible recursion
depth for a 65535-byte datagram. -/
def connFuel : Nat := 65535

/-- The `data := make([]byte, 65535)` buffer of src `readFromConnection`:
the UDP payload occupies the first `n` bytes and the rest stays zero. A
failed `ReadFromUDP` (modelled by `none`) leaves the buffer all zero with
`n = 0`; its error is overwritten before being checked. -/
def connBuffer : Option (List UInt8) → List UInt8
  | some d => d ++ List.replicate (65535 - d.length) 0
  | none => List.replicate 65535 0

/-- The byte count `n` returned by `ReadFromUDP`, used as `end`. -/
def connEnd : Option (List UInt8) → Nat
  | some d => d.length
  | none => 0

/-- From src `readFromConnection`: decode the buffer, then
`return packet, nil` — the error from `readPacket` (and the earlier one
from `ReadFromUDP`) is discarded, so the function returns a nil error
whenever it returns at all. `readPacket` returns a nil packet on every one
of its error paths, so a decode failure yields `(nil, nil)`. A decode
panic propagates (the function never returns). -/
def readFromConnection (d : Option (List UInt8)) :
    DecResult (Option Packet × Option OscError) :=
  match readPacket connFuel (connBuffer d) 0 (connEnd d) with
  | .fail _ => .ok (none, none)
  | .crash => .crash
  | .ok (p, _, _) => .ok (p, none)

/-- Modelled from the spec: the character set that `validateRegistration`
rejects in a registration address (the wildcard characters and the space;
the dispatcher lives in the repository file not under src). The two brace
characters are written numerically. -/
def isWildcardChar (c : Char) : Bool :=
  c = '*' || c = '?' || c = '[' || c = ']' || c = Char.ofNat 123 || c = Char.ofNat 125 || c = ' '

/-- Modelled from the spec: registration-address validation — the address
must start with `'/'` and contain no wildcard character and no space. -/
def validateRegistration (addr : String) : Bool :=
  (addr.data.head? == some '/') && addr.data.all (fun c => !isWildcardChar c)

/-- Modelled from the spec: `OscDispatcher.AddMsgHandler` — validate the
address, then record the binding; an invalid address fails with
`InvalidAddress`. The registry is modelled by the list of registered
addresses (a handler is a capability identified here by its address). -/
def AddMsgHandler (reg : List String) (addr : String) : Except OscError (List String) :=
  if validateRegistration addr then .ok (reg ++ [addr]) else .error .invalidAddress

mutual

/-- Modelled from the spec: `OscDispatcher.Dispatch` type-switches on the
packet; a Message is matched against every registered address (no early
exit) and a Bundle dispatches its elements in order. The address matcher
is a parameter (its glob algorithm is in the repository file not under
src; no claim below depends on it). The result is the list of handler
invocations, as (registered address, message) pairs in order. -/
def dispatchPacket (matcher : String → String → Bool) (reg : List String) :
    Packet → List (String × Message)
  | .message m => (reg.filter (fun a => matcher a m.address)).map (fun a => (a, m))
  | .bundle _ elems => dispatchElems matcher reg elems

/-- Dispatches a bundle's elements in order; a Go-nil element matches
neither case of the type switch, invoking nothing. -/
def dispatchElems (matcher : String → String → Bool) (reg : List String) :
    List (Option Packet) → List (String × Message)
  | [] => []
  | none :: rest => dispatchElems matcher reg rest
  | some p :: rest => dispatchPacket matcher reg p ++ dispatchElems matcher reg rest

end

/-- `Dispatch` as called from the server loop, where the packet variable
may hold the Go nil interface: the type switch then selects no case and
nothing is invoked, whatever the registry holds. -/
def dispatchOpt (matcher : String → String → Bool) (reg : List String) :
    Option Packet → List (String × Message)
  | none => []
  | some p => dispatchPacket matcher reg p

/-- Outcome of one iteration of the `for self.running` loop in src
`ListenAndDispatch` (lines 101-107). -/
inductive LoopStep where
  | stopped : OscError → LoopStep
  | dispatched : List (String × Message) → LoopStep
  | crashed : LoopStep
deriving DecidableEq

/-- One iteration of the src `ListenAndDispatch` loop: read a datagram; if
`readFromConnection` reported an error the loop returns it, otherwise the
retrieved packet (possibly nil) is handed to the dispatcher and the loop
continues. A panic below kills the loop and the process. -/
def listenStep (matcher : String → String → Bool) (reg : List String)
    (d : Option (List UInt8)) : LoopStep :=
  match readFromConnection d with
  | .ok (_, some e) => .stopped e
  | .ok (p, none) => .dispatched (dispatchOpt matcher reg p)
  | .fail e => .stopped e
  | .crash => .crashed

lemma readBytes_none_of_lt : ∀ (k : Nat) (buf : List UInt8), buf.length < k →
    readBytes k buf = none := by
  intro k
  induction k with
  | zero => intro buf h; omega
  | succ k ih =>
    intro buf h
    cases buf with
    | nil => rfl
    | cons b rest =>
      simp only [readBytes, ih rest (by simpa using h)]

/-- C4: the claim says blob decoding reads a 4-byte big-endian length
prefix L, then L raw bytes, then padding, consuming 4 + L + padding. In
fact `readBlob` fails on every input with the `binary.Read: invalid type`
error, because the length is read into a plain Go `int`, which
`encoding/binary` rejects; the length is never read at all. -/
theorem c4_readBlob_always_fails :
    ∀ buf : List UInt8, readBlob buf = .fail .invalidBinaryType :=
  fun _ => rfl

/-- C1: for the 12-byte datagram `/a` `,b` with declared blob length 100
and no blob bytes remaining, decoding does fail — but with the
invalid-type error from `readBlob` rather than a truncated-input error,
and `readFromConnection` swallows it, returning `(nil, nil)`: nothing
surfaces to the `ListenAndDispatch` caller. The loop continues and hands
the nil packet to the dispatcher, which invokes no handler (here with a
handler registered at the message's own address under the equality
matcher). -/
theorem c1_truncated_blob_error_swallowed :
    readMessage (connBuffer (some [47, 97, 0, 0, 44, 98, 0, 0, 0, 0, 0, 100])) 0
      = .fail .invalidBinaryType ∧
    readFromConnection (some [47, 97, 0, 0, 44, 98, 0, 0, 0, 0, 0, 100]) = .ok (none, none) ∧
    listenStep (fun a b => a == b) ["/a"] (some [47, 97, 0, 0, 44, 98, 0, 0, 0, 0, 0, 100])
      = .dispatched [] :=
  ⟨rfl, rfl, rfl⟩

/-- C2: the 4-byte datagram holding only the padded address `/a` reaches
`readArguments` with an empty type-tag string; the source then evaluates
`typetags[0]`, an index-out-of-range runtime panic. Decoding does not
return an error — it crashes, and the crash propagates through
`readFromConnection` into the `ListenAndDispatch` loop, killing the
process. -/
theorem c2_empty_typetag_crash :
    readMessage [47, 97, 0, 0, 0, 0, 0, 0] 0 = .crash ∧
    readFromConnection (some [47, 97, 0, 0]) = .crash ∧
    listenStep (fun a b => a == b) [] (some [47, 97, 0, 0]) = .crashed :=
  ⟨rfl, rfl, rfl⟩

/-- C5: decoding the 16-byte message `/a` `,s` `"abcd"` consumes all 16
bytes from the reader (the remaining buffer is empty), but the position
counter ends at 12: the string argument advanced it by
`len("abcd") + padBytesNeeded(len("abcd")) = 4`, not by the 8 bytes
(content + terminator + padding) actually consumed, as the claim — and the
true wire format — require. The counter is short by 4 whenever the content
length is a multiple of 4. -/
theorem c5_string_argument_start_accounting :
    readMessage [47, 97, 0, 0, 44, 115, 0, 0, 97, 98, 99, 100, 0, 0, 0, 0] 0
      = .ok (⟨"/a", [.str "abcd"]⟩, [], 12) ∧
    ([47, 97, 0, 0, 44, 115, 0, 0, 97, 98, 99, 100, 0, 0, 0, 0] : List UInt8).length = 16 :=
  ⟨by decide, rfl⟩

/-- C10: when fewer than 8 bytes remain for a `'t'` (timetag) argument,
the failed read makes `readArguments` return a nil error immediately: the
loop reports success with only the arguments accumulated so far, dropping
the timetag and every later tag. -/
theorem c10_truncated_timetag_reports_success (ts : List Char) (buf : List UInt8)
    (start : Nat) (acc : List Arg) (h : buf.length < 8) :
    readArgLoop ('t' :: ts) buf start acc = .ok (acc, buf.drop 8, start) := by
  have h8 : readBytes 8 buf = none := readBytes_none_of_lt 8 buf h
  simp [readArgLoop, binRead, h8]

/-- Witness for C10: the tag string `,ti` with an empty buffer decodes to
a message with no arguments at all, reported as success. -/
theorem c10_truncated_timetag_reports_success_witness :
    readArgLoop ['t', 'i'] [] 0 [] = .ok ([], [], 0) :=
  c10_truncated_timetag_reports_success ['i'] [] 0 [] (by decide)

/-- C3 counterexample: a buffer whose first byte is `'X'` (88) makes
`readPacket` return success carrying no packet — `(nil, nil)` — rather
than failing with an `UnrecognizedPacket` error as the claim states. -/
theorem c3_unknown_first_byte_counterexample :
    readPacket 1 [88, 0, 0, 0] 0 4 = .ok (none, [88, 0, 0, 0], 0) ∧
    ∀ e : OscError, readPacket 1 [88, 0, 0, 0] 0 4 ≠ .fail e :=
  ⟨rfl, fun _ h => DecResult.noConfusion h⟩

/-- C6 counterexample: for the tag `'b'` — inside the recognized set — and
a well-formed empty blob (length prefix 0), the argument loop does not
append a blob argument: it fails, and not with the `UnsupportedTypeTag`
error the claim reserves for unrecognized tags, but with `readBlob`'s
invalid-type error. -/
theorem c6_blob_tag_counterexample :
    readArgLoop ['b'] [0, 0, 0, 0] 0 [] = .fail .invalidBinaryType ∧
    ∀ c : Char, readArgLoop ['b'] [0, 0, 0, 0] 0 [] ≠ .fail (.unsupportedTypeTag c) :=
  ⟨rfl, fun _ h => by injection h with h1; exact OscError.noConfusion h1⟩

/-- C7 counterexample: the message `/x` followed by an empty type-tag
string: the type-tag string does not begin with `','`, yet decoding does
not fail with `InvalidTypeTag` — it crashes with the index-out-of-range
panic from `typetags[0]`. -/
theorem c7_empty_typetag_counterexample :
    readMessage [47, 120, 0, 0, 0, 0, 0, 0] 0 = .crash ∧
    ∀ e : OscError, readMessage [47, 120, 0, 0, 0, 0, 0, 0] 0 ≠ .fail e :=
  ⟨rfl, fun _ h => DecResult.noConfusion h⟩

/-- C9: `readFromConnection` ends in `return packet, nil`: whenever it
returns, the error is nil — for every datagram, including a failed UDP
read (`none`) — and when the decode fails it returns a nil packet with
that nil error, so the `ListenAndDispatch` loop continues and hands the
nil packet to the dispatcher instead of surfacing the decode error. (The
one way it can fail to return is a decode panic, which never returns at
all — see the C2 development.) -/
theorem c9_read_error_swallowed :
    (∀ d p e, readFromConnection d = .ok (p, e) → e = none) ∧
    (∀ d err, readPacket connFuel (connBuffer d) 0 (connEnd d) = .fail err →
      readFromConnection d = .ok (none, none)) ∧
    (∀ matcher reg d err, readPacket connFuel (connBuffer d) 0 (connEnd d) = .fail err →
      listenStep matcher reg d = .dispatched (dispatchOpt matcher reg none)) ∧
    readFromConnection none = .ok (none, none) := by
  refine ⟨?_, ?_, ?_, rfl⟩
  · intro d p e h
    unfold readFromConnection at h
    split at h
    · injection h with h1
      injection h1 with _ h2
      exact h2.symm
    · exact DecResult.noConfusion h
    · injection h with h1
      injection h1 with _ h2
      exact h2.symm
  · intro d err h
    unfold readFromConnection
    rw [h]
  · intro matcher reg d err h
    have h2 : readFromConnection d = .ok (none, none) := by
      unfold readFromConnection
      rw [h]
    unfold listenStep
    rw [h2]

/-- Witness for C9: the datagram `#` `0x00 0x00 0x00` decodes to an
invalid-bundle-tag failure, which `readFromConnection` turns into
`(nil, nil)`; the loop iteration dispatches nothing and continues. -/
theorem c9_read_error_swallowed_witness :
    readFromConnection (some [35, 0, 0, 0]) = .ok (none, none) ∧
    listenStep (fun a b => a == b) ["/x"] (some [35, 0, 0, 0]) = .dispatched [] := by
  constructor
  · exact c9_read_error_swallowed.2.1 (some [35, 0, 0, 0]) (.invalidBundleTag "#") rfl
  · exact c9_read_error_swallowed.2.2.1 (fun a b => a == b) ["/x"]
      (some [35, 0, 0, 0]) (.invalidBundleTag "#") rfl

/-- C8: registering the concrete address `/address/test` succeeds, while
any address containing a wildcard character (or a space) and any address
not starting with `'/'` is rejected with `InvalidAddress`. -/
theorem c8_registration_validation :
    AddMsgHandler [] "/address/test" = .ok ["/address/test"] ∧
    (∀ (reg : List String) (addr : String) (c : Char), c ∈ addr.data →
      isWildcardChar c = true → AddMsgHandler reg addr = .error .invalidAddress) ∧
    (∀ (reg : List String) (addr : String), addr.data.head? ≠ some '/' →
      AddMsgHandler reg addr = .error .invalidAddress) := by
  refine ⟨rfl, ?_, ?_⟩
  · intro reg addr c hc hw
    have hv : validateRegistration addr = false := by
      unfold validateRegistration
      have hall : addr.data.all (fun x => !isWildcardChar x) = false := by
        cases hcase : addr.data.all (fun x => !isWildcardChar x) with
        | false => rfl
        | true =>
          have h2 := List.all_eq_true.mp hcase c hc
          rw [hw] at h2
          exact absurd h2 (by simp)
      simp [hall]
    simp [AddMsgHandler, hv]
  · intro reg addr h
    have hv : validateRegistration addr = false := by
      unfold validateRegistration
      have hne : (addr.data.head? == some '/') = false := by
        simpa using h
      simp [hne]
    simp [AddMsgHandler, hv]

/-- Witness for C8: the wildcard address `/address*/test` and the
slash-less address `a/b` are both rejected. -/
theorem c8_registration_validation_witness :
    AddMsgHandler [] "/address*/test" = .error .invalidAddress ∧
    AddMsgHandler [] "a/b" = .error .invalidAddress := by
  constructor
  · exact c8_registration_validation.2.1 [] "/address*/test" '*' (by decide) (by decide)
  · exact c8_registration_validation.2.2 [] "a/b" (by decide)

lemma readRec_bundleElems_ok (fuel : Nat) : ∀ (tt : Nat) (elems : List (Option Packet))
    (buf : List UInt8) (start endPos : Nat) (r : Option Packet × List UInt8 × Nat),
    readRec fuel (.bundleElems tt elems buf start endPos) = .ok r →
    ∃ t el, r.1 = some (Packet.bundle t el) := by
  induction fuel with
  | zero => intro tt elems buf start endPos r h; exact DecResult.noConfusion h
  | succ fuel ih =>
    intro tt elems buf start endPos r h
    simp only [readRec] at h
    split at h
    · split at h
      · exact DecResult.noConfusion h
      · split at h
        · exact DecResult.noConfusion h
        · exact DecResult.noConfusion h
        · exact ih _ _ _ _ _ _ h
    · injection h with h1
      exact ⟨tt, elems, by rw [← h1]⟩

lemma readRec_bundleStart_ok (fuel : Nat) (buf : List UInt8) (start endPos : Nat)
    (r : Option Packet × List UInt8 × Nat)
    (h : readRec fuel (.bundleStart buf start endPos) = .ok r) :
    ∃ t el, r.1 = some (Packet.bundle t el) := by
  cases fuel with
  | zero => exact DecResult.noConfusion h
  | succ fuel =>
    simp only [readRec] at h
    split at h
    · exact DecResult.noConfusion h
    · exact DecResult.noConfusion h
    · split at h
      · split at h
        · exact DecResult.noConfusion h
        · exact readRec_bundleElems_ok fuel _ _ _ _ _ _ h
      · exact DecResult.noConfusion h

/-- C3, amended: `readPacket` inspects the first byte; when decoding
succeeds with a packet, a `'/'` first byte yields a Message and a `'#'`
first byte yields a Bundle. But there is no `UnrecognizedPacket` failure:
for any other first byte both branches are skipped and the function
returns success carrying no packet (Go `(nil, nil)`), the buffer and
counter untouched. -/
theorem c3_first_byte_dispatch :
    (∀ (fuel : Nat) (buf : List UInt8) (start endPos : Nat) (p : Packet)
      (rest : List UInt8) (s : Nat),
      readPacket fuel buf start endPos = .ok (some p, rest, s) →
      (buf.head? = some 47 → ∃ m, p = .message m) ∧
      (buf.head? = some 35 → ∃ t el, p = .bundle t el)) ∧
    (∀ (fuel : Nat) (b : UInt8) (bs : List UInt8) (start endPos : Nat), b ≠ 47 → b ≠ 35 →
      readPacket (fuel + 1) (b :: bs) start endPos = .ok (none, b :: bs, start)) := by
  constructor
  · intro fuel buf start endPos p rest s h
    cases fuel with
    | zero => exact DecResult.noConfusion h
    | succ fuel =>
      unfold readPacket at h
      simp only [readRec] at h
      split at h
      · exact DecResult.noConfusion h
      · rename_i b hb
        constructor
        · intro h47
          rw [hb] at h47
          injection h47 with hb47
          subst hb47
          rw [if_pos rfl] at h
          split at h
          · exact DecResult.noConfusion h
          · exact DecResult.noConfusion h
          · rename_i m b2 s2 hm
            injection h with h1
            injection h1 with h2 h3
            injection h2 with h4
            exact ⟨m, h4.symm⟩
        · intro h35
          rw [hb] at h35
          injection h35 with hb35
          subst hb35
          rw [if_neg (by decide), if_pos rfl] at h
          split at h
          · exact DecResult.noConfusion h
          · exact DecResult.noConfusion h
          · rename_i p2 b2 s2 hstart
            obtain ⟨t, el, hp⟩ := readRec_bundleStart_ok fuel buf start endPos _ hstart
            injection h with h1
            injection h1 with h2 h3
            have hp2 : p2 = some (Packet.bundle t el) := hp
            rw [h2] at hp2
            injection hp2 with h4
            exact ⟨t, el, h4⟩
  · intro fuel b bs start endPos h47 h35
    unfold readPacket
    simp only [readRec, List.head?_cons]
    rw [if_neg h47, if_neg h35]

/-- Witness for C3: the one-byte buffer `X` decodes to success with no
packet, and a minimal `/a` message buffer decodes to a Message packet. -/
theorem c3_first_byte_dispatch_witness :
    readPacket 1 [88] 0 1 = .ok (none, [88], 0) ∧
    (∃ m, Packet.message ⟨"/a", []⟩ = Packet.message m) := by
  constructor
  · exact c3_first_byte_dispatch.2 0 88 [] 0 1 (by decide) (by decide)
  · exact (c3_first_byte_dispatch.1 1 [47, 97, 0, 0, 44, 0, 0, 0] 0 8
      (.message ⟨"/a", []⟩) [] 8 rfl).1 rfl

lemma argLoopStep_i (ts : List Char) (buf : List UInt8) (start : Nat) (acc : List Arg) :
    readArgLoop ('i' :: ts) buf start acc =
      match binRead 4 buf with
      | (none, _) => .fail .truncatedInput
      | (some v, buf2) => readArgLoop ts buf2 (start + 4) (acc ++ [.int32 v]) := rfl

lemma argLoopStep_h (ts : List Char) (buf : List UInt8) (start : Nat) (acc : List Arg) :
    readArgLoop ('h' :: ts) buf start acc =
      match binRead 8 buf with
      | (none, _) => .fail .truncatedInput
      | (some v, buf2) => readArgLoop ts buf2 (start + 8) (acc ++ [.int64 v]) := rfl

lemma argLoopStep_f (ts : List Char) (buf : List UInt8) (start : Nat) (acc : List Arg) :
    readArgLoop ('f' :: ts) buf start acc =
      match binRead 4 buf with
      | (none, _) => .fail .truncatedInput
      | (some v, buf2) => readArgLoop ts buf2 (start + 4) (acc ++ [.float32 v]) := rfl

lemma argLoopStep_d (ts : List Char) (buf : List UInt8) (start : Nat) (acc : List Arg) :
    readArgLoop ('d' :: ts) buf start acc =
      match binRead 8 buf with
      | (none, _) => .fail .truncatedInput
      | (some v, buf2) => readArgLoop ts buf2 (start + 8) (acc ++ [.float64 v]) := rfl

lemma argLoopStep_s (ts : List Char) (buf : List UInt8) (start : Nat) (acc : List Arg) :
    readArgLoop ('s' :: ts) buf start acc =
      match readPaddedString buf with
      | .fail e => .fail e
      | .crash => .crash
      | .ok (s, _, buf2) =>
        readArgLoop ts buf2 (start + (s.length + padBytesNeeded s.length)) (acc ++ [.str s]) :=
  rfl

lemma argLoopStep_T (ts : List Char) (buf : List UInt8) (start : Nat) (acc : List Arg) :
    readArgLoop ('T' :: ts) buf start acc = readArgLoop ts buf start (acc ++ [.boolArg true]) :=
  rfl

lemma argLoopStep_F (ts : List Char) (buf : List UInt8) (start : Nat) (acc : List Arg) :
    readArgLoop ('F' :: ts) buf start acc = readArgLoop ts buf start (acc ++ [.boolArg false]) :=
  rfl

/-- C6, amended: tag characters are processed in order, left to right.
For tag lists over `i h f d s T F`, a successful run of the argument loop
appends exactly one argument of the corresponding kind per tag, in order.
A tag character outside the recognized set `i h f d s b t T F` fails with
`UnsupportedTypeTag` at its first occurrence. The claim's statement that
`'b'` likewise appends one blob argument is false: a `'b'` tag always
fails with `readBlob`'s invalid-type error (see C4); and a `'t'` tag with
fewer than 8 bytes remaining silently ends the loop with success (see
C10), which is why `'t'` is excluded from the first part. -/
theorem c6_tag_loop :
    (∀ ts : List Char, (∀ c ∈ ts, c ∈ (['i', 'h', 'f', 'd', 's', 'T', 'F'] : List Char)) →
      ∀ (buf : List UInt8) (start : Nat) (acc args : List Arg) (buf2 : List UInt8) (s2 : Nat),
        readArgLoop ts buf start acc = .ok (args, buf2, s2) →
        ∃ new, args = acc ++ new ∧ new.map argTag = ts) ∧
    (∀ (c : Char) (ts : List Char) (buf : List UInt8) (start : Nat) (acc : List Arg),
      c ∉ (['i', 'h', 'f', 'd', 's', 'b', 't', 'T', 'F'] : List Char) →
      readArgLoop (c :: ts) buf start acc = .fail (.unsupportedTypeTag c)) ∧
    (∀ (ts : List Char) (buf : List UInt8) (start : Nat) (acc : List Arg),
      readArgLoop ('b' :: ts) buf start acc = .fail .invalidBinaryType) := by
  refine ⟨?_, ?_, ?_⟩
  · intro ts
    induction ts with
    | nil =>
      intro _ buf start acc args buf2 s2 h
      have h' : (DecResult.ok (acc, buf, start) : DecResult (List Arg × List UInt8 × Nat))
          = .ok (args, buf2, s2) := h
      injection h' with h1
      injection h1 with ha hb
      exact ⟨[], by rw [List.append_nil]; exact ha.symm, rfl⟩
    | cons c ts ih =>
      intro hmem buf start acc args buf2 s2 h
      have hc := hmem c (List.mem_cons_self c ts)
      have hts : ∀ x ∈ ts, x ∈ (['i', 'h', 'f', 'd', 's', 'T', 'F'] : List Char) :=
        fun x hx => hmem x (List.mem_cons_of_mem c hx)
      simp only [List.mem_cons, List.mem_singleton] at hc
      rcases hc with rfl | rfl | rfl | rfl | rfl | rfl | rfl | hc
      · rw [argLoopStep_i] at h
        cases hbr : binRead 4 buf with
        | mk o rest =>
          rw [hbr] at h
          cases o with
          | none => exact DecResult.noConfusion h
          | some v =>
            obtain ⟨new, hargs, hmap⟩ := ih hts rest _ _ args buf2 s2 h
            exact ⟨.int32 v :: new, by rw [hargs, List.append_assoc]; rfl,
              by simp [argTag, hmap]⟩
      · rw [argLoopStep_h] at h
        cases hbr : binRead 8 buf with
        | mk o rest =>
          rw [hbr] at h
          cases o with
          | none => exact DecResult.noConfusion h
          | some v =>
            obtain ⟨new, hargs, hmap⟩ := ih hts rest _ _ args buf2 s2 h
            exact ⟨.int64 v :: new, by rw [hargs, List.append_assoc]; rfl,
              by simp [argTag, hmap]⟩
      · rw [argLoopStep_f] at h
        cases hbr : binRead 4 buf with
        | mk o rest =>
          rw [hbr] at h
          cases o with
          | none => exact DecResult.noConfusion h
          | some v =>
            obtain ⟨new, hargs, hmap⟩ := ih hts rest _ _ args buf2 s2 h
            exact ⟨.float32 v :: new, by rw [hargs, List.append_assoc]; rfl,
              by simp [argTag, hmap]⟩
      · rw [argLoopStep_d] at h
        cases hbr : binRead 8 buf with
        | mk o rest =>
          rw [hbr] at h
          cases o with
          | none => exact DecResult.noConfusion h
          | some v =>
            obtain ⟨new, hargs, hmap⟩ := ih hts rest _ _ args buf2 s2 h
            exact ⟨.float64 v :: new, by rw [hargs, List.append_assoc]; rfl,
              by simp [argTag, hmap]⟩
      · rw [argLoopStep_s] at h
        cases hps : readPaddedString buf with
        | ok v =>
          obtain ⟨str, n, rest⟩ := v
          rw [hps] at h
          obtain ⟨new, hargs, hmap⟩ := ih hts rest _ _ args buf2 s2 h
          exact ⟨.str str :: new, by rw [hargs, List.append_assoc]; rfl,
            by simp [argTag, hmap]⟩
        | fail e => rw [hps] at h; exact DecResult.noConfusion h
        | crash => rw [hps] at h; exact DecResult.noConfusion h
      · rw [argLoopStep_T] at h
        obtain ⟨new, hargs, hmap⟩ := ih hts buf start _ args buf2 s2 h
        exact ⟨.boolArg true :: new, by rw [hargs, List.append_assoc]; rfl,
          by simp [argTag, hmap]⟩
      · rw [argLoopStep_F] at h
        obtain ⟨new, hargs, hmap⟩ := ih hts buf start _ args buf2 s2 h
        exact ⟨.boolArg false :: new, by rw [hargs, List.append_assoc]; rfl,
          by simp [argTag, hmap]⟩
      · exact absurd hc (List.not_mem_nil c)
  · intro c ts buf start acc hc
    have h1 : c ≠ 'i' := fun he => hc (by rw [he]; decide)
    have h2 : c ≠ 'h' := fun he => hc (by rw [he]; decide)
    have h3 : c ≠ 'f' := fun he => hc (by rw [he]; decide)
    have h4 : c ≠ 'd' := fun he => hc (by rw [he]; decide)
    have h5 : c ≠ 's' := fun he => hc (by rw [he]; decide)
    have h6 : c ≠ 'b' := fun he => hc (by rw [he]; decide)
    have h7 : c ≠ 't' := fun he => hc (by rw [he]; decide)
    have h8 : c ≠ 'T' := fun he => hc (by rw [he]; decide)
    have h9 : c ≠ 'F' := fun he => hc (by rw [he]; decide)
    simp only [readArgLoop, if_neg h1, if_neg h2, if_neg h3, if_neg h4, if_neg h5,
      if_neg h6, if_neg h7, if_neg h8, if_neg h9]
  · intro ts buf start acc
    rfl

/-- Witness for C6: the tag list `,i` over the buffer `00 00 00 07`
appends exactly the one int32 argument, and the unrecognized tag `'x'`
fails with `UnsupportedTypeTag`. -/
theorem c6_tag_loop_witness :
    (∃ new, [Arg.int32 7] = [] ++ new ∧ new.map argTag = ['i']) ∧
    readArgLoop ['x'] [] 0 [] = .fail (.unsupportedTypeTag 'x') := by
  constructor
  · exact c6_tag_loop.1 ['i'] (by decide) [0, 0, 0, 7] 0 [] [Arg.int32 7] [] 4 rfl
  · exact c6_tag_loop.2.1 'x' [] [] 0 [] (by decide)

/-- C7, amended for a non-empty type-tag string: after the type-tag
string is read as a padded OSC-string, decoding fails with the
`InvalidTypeTag` error when its first character is not `','`, and
proceeds to the argument loop when it is. (For an *empty* type-tag
string the source instead panics on `typetags[0]` — see the
counterexample.) -/
theorem c7_typetag_comma_check (buf : List UInt8) (start : Nat) (s : String) (n : Nat)
    (rest : List UInt8) (c : Char) (cs : List Char)
    (hps : readPaddedString buf = .ok (s, n, rest)) (hd : s.data = c :: cs) :
    (c ≠ ',' → readArguments buf start = .fail .invalidTypeTag) ∧
    (c = ',' → readArguments buf start = readArgLoop cs rest (start + n) []) := by
  constructor
  · intro hne
    simp only [readArguments, hps, hd, if_neg hne]
  · intro heq
    simp only [readArguments, hps, hd, if_pos heq]

/-- Witness for C7: the type-tag string `i` (not starting with a comma)
makes `readArguments` fail with `InvalidTypeTag`, and the type-tag string
`,` proceeds to the (empty) argument loop. -/
theorem c7_typetag_comma_check_witness :
    readArguments [105, 0, 0, 0] 0 = .fail .invalidTypeTag ∧
    readArguments [44, 0, 0, 0] 0 = readArgLoop [] [] 4 [] := by
  constructor
  · exact (c7_typetag_comma_check [105, 0, 0, 0] 0 "i" 4 [] 'i' [] rfl rfl).1 (by decide)
  · exact (c7_typetag_comma_check [44, 0, 0, 0] 0 "," 4 [] ',' [] rfl rfl).2 rfl

end Osc
